import Mathlib

/-!
Verification of the AutoMirror reconciliation and execution engine.

This development embeds the core of `src/automirror/main.py` (and, where the
driving code is absent from the tree, the behaviour documented for the
`Session` layer of `src/automirror/configs.py`) as executable Lean
definitions, and proves the stated properties about them.

Remote HTTP behaviour is abstracted as data: a page "world" maps a URL to the
response the host would return, and status codes of individual calls are plain
naturals.  Python statements that raise (an `assert` failure or a propagated
exception) are embedded as `none` results of `Option`-valued functions.
-/

namespace AutoMirror

/-- One entry of a repository listing, as consumed by `main.py`
(`repo["name"]`, `repo["clone_url"]`). -/
structure Repo where
  name : String
  clone_url : String
deriving DecidableEq, Repr

/-- The value attached to one link relation of an HTTP response:
`resp.links[rel]` is a dictionary that may or may not carry a `url` key
(`resp.links["next"].get("url")`). -/
structure LinkRec where
  url : Option String
deriving DecidableEq, Repr

/-- One page response of a paged listing endpoint: its status code, the items
of `resp.json()`, and the link relations of `resp.links`. -/
structure PageResp where
  status : Nat
  items : List Repo
  links : List (String × LinkRec)
deriving DecidableEq, Repr

/-- The URL the pagination loops continue with, from
`url = resp.links["next"].get("url") if "next" in resp.links else None`
(`main.py` lines 66-69 and 80-83). -/
def nextUrl (resp : PageResp) : Option String :=
  match resp.links.lookup "next" with
  | some l => l.url
  | none => none

/-- `get_target_org_repos` (`main.py` lines 59-70): follows `next` links from
the start URL, appending each page of items, while asserting every page
returns status 200.  `world` gives the response of each URL; `fuel` bounds the
number of iterations of the Python `while` loop (a run that would loop beyond
the fuel is `none`, as is an `assert` failure). -/
def get_target_org_repos (world : String → PageResp) :
    Nat → Option String → Option (List Repo)
  | _, none => some []
  | 0, some _ => none
  | fuel + 1, some url =>
    let resp := world url
    if resp.status = 200 then
      match get_target_org_repos world fuel (nextUrl resp) with
      | some rest => some (resp.items ++ rest)
      | none => none
    else none

/-- `get_origin_org_repos_iter` (`main.py` lines 73-83): identical pagination
loop on the origin client; the async generator yields its items in page
order, embedded here as the list of all yielded items. -/
def get_origin_org_repos_iter (world : String → PageResp) :
    Nat → Option String → Option (List Repo)
  | _, none => some []
  | 0, some _ => none
  | fuel + 1, some url =>
    let resp := world url
    if resp.status = 200 then
      match get_origin_org_repos_iter world fuel (nextUrl resp) with
      | some rest => some (resp.items ++ rest)
      | none => none
    else none

/-- A chain of pages reached by following `next` links from a starting URL:
each page in the list is the response of the current URL, has status 200, and
hands over to the rest of the chain through its `next` relation; the chain
ends exactly when the continuation URL is `None`. -/
inductive PageChain (world : String → PageResp) : Option String → List PageResp → Prop
  | nil : PageChain world none []
  | cons (url : String) (rs : List PageResp) :
      (world url).status = 200 →
      PageChain world (nextUrl (world url)) rs →
      PageChain world (some url) (world url :: rs)

/-- The remote calls the engine can issue against the target host. -/
inductive RemoteCall
  | orgLookup
  | orgCreate
  | repoList
  | migrateCall
  | deleteCall
deriving DecidableEq, Repr

/-- `check_target` (`main.py` lines 45-56): looks the target org up, asserts
the status is 200 or 404, creates the org on 404 (asserting 201) and returns
an empty listing, or returns the materialized listing on 200.  The first
component records the remote calls issued; the second is `none` exactly when
one of the two asserts fires or the nested listing call itself raised
(`listing = none`). -/
def check_target (lookupStatus createStatus : Nat) (listing : Option (List Repo)) :
    List RemoteCall × Option (List Repo) :=
  if lookupStatus = 200 ∨ lookupStatus = 404 then
    if lookupStatus = 404 then
      if createStatus = 201 then ([.orgLookup, .orgCreate], some [])
      else ([.orgLookup, .orgCreate], none)
    else
      match listing with
      | some repos => ([.orgLookup, .repoList], some repos)
      | none => ([.orgLookup, .repoList], none)
  else ([.orgLookup], none)

/-- The recorded result of one create or delete attempt, as logged by
`repo_migrate` and `repo_delete`. -/
inductive Outcome
  | created
  | createFailed (status : Nat)
  | deleted
  | deleteFailed (status : Nat)
deriving DecidableEq, Repr

/-- `repo_migrate` (`main.py` lines 86-99): issues exactly one POST to the
migrate endpoint; status 201 is logged as Created, any other status as
CreateFailed.  No further call is issued and nothing is raised. -/
def repo_migrate (status : Nat) : List RemoteCall × Outcome :=
  ([.migrateCall], if status = 201 then .created else .createFailed status)

/-- `repo_delete` (`main.py` lines 102-107): issues exactly one DELETE;
status 204 is logged as Deleted, any other status as DeleteFailed.  Nothing
is raised. -/
def repo_delete (status : Nat) : List RemoteCall × Outcome :=
  ([.deleteCall], if status = 204 then .deleted else .deleteFailed status)

/-- The diff loop of `update_org` (`main.py` lines 120-130): streams the
origin repos against the target-name working set.  A streamed repo whose name
is in the working set removes that name (`list.remove`, first occurrence) and
is classified unchanged (logged Existed); otherwise a migrate task is
scheduled for it.  Returns (repos scheduled for creation, names classified
unchanged, names left in the working set — the ones scheduled for
deletion). -/
def org_diff : List Repo → List String → List Repo × List String × List String
  | [], names => ([], [], names)
  | r :: rs, names =>
    if r.name ∈ names then
      ((org_diff rs (names.erase r.name)).1,
       r.name :: (org_diff rs (names.erase r.name)).2.1,
       (org_diff rs (names.erase r.name)).2.2)
    else
      (r :: (org_diff rs names).1,
       (org_diff rs names).2.1,
       (org_diff rs names).2.2)

/-- How `update_org` reports a mapping at its end (`main.py` lines 115-135):
a check_target failure is logged as a sync failure and nothing further runs;
an origin-stream exception is logged as an incomplete sync; otherwise the
sync is logged successful. -/
inductive SyncReport
  | success
  | incomplete
  | checkTargetFailed
deriving DecidableEq, Repr

/-- Everything one run of `update_org` schedules and reports. -/
structure OrgSync where
  creates : List Repo
  existed : List String
  deletes : List String
  report : SyncReport
deriving DecidableEq, Repr

/-- `update_org` (`main.py` lines 110-135).  `targetListing` is the result of
`check_target` (`none` when it raised, in which case the function logs and
returns at line 117 before scheduling anything).  `seen` is the list of repos
the origin iterator yielded before completing or raising, and `originFailed`
tells whether it raised; the exception is caught inside the task group
(line 126-127), so the deletes of every name still in the working set are
scheduled either way, and the failure only changes the final report
(lines 132-135). -/
def update_org (targetListing : Option (List Repo)) (seen : List Repo)
    (originFailed : Bool) : OrgSync :=
  match targetListing with
  | none => ⟨[], [], [], .checkTargetFailed⟩
  | some target_repos =>
    let names := target_repos.map Repo.name
    ⟨(org_diff seen names).1,
     (org_diff seen names).2.1,
     (org_diff seen names).2.2,
     if originFailed then .incomplete else .success⟩

/-- The task-group fan-out of `update_org` (lines 118-130): one task per
scheduled migrate and one per scheduled delete, all awaited to completion by
`async with asyncio.TaskGroup()`.  Each task performs its one remote call and
logs its own outcome; the outcome of a task is a function of that task's
status alone. -/
def run_batch (creates : List (Repo × Nat)) (deletes : List (String × Nat)) :
    List Outcome :=
  creates.map (fun p => (repo_migrate p.2).2) ++
    deletes.map (fun p => (repo_delete p.2).2)

/-- A character allowed in a URL scheme after the first one, per the stdlib
URL splitter consumed by `check_url` / `update_repo`: ASCII letters, digits,
and the three symbols plus, minus, dot. -/
def isSchemeChar (c : Char) : Bool :=
  c.isAlphanum || c = '+' || c = '-' || c = '.'

/-- Splits a character list at its first colon, returning the parts before
and after it, or `none` when there is no colon. -/
def splitAtColon : List Char → Option (List Char × List Char)
  | [] => none
  | c :: cs =>
    if c = ':' then some ([], cs)
    else
      match splitAtColon cs with
      | none => none
      | some (pre, post) => some (c :: pre, post)

/-- The scheme extraction of the stdlib `urlparse` (an external collaborator
of the engine): when the text before the first colon is non-empty, starts
with an ASCII letter and consists of scheme characters, it is the scheme
(lowercased) and parsing continues after the colon; otherwise the scheme is
empty and the whole input remains. -/
def urlsplitScheme (cs : List Char) : List Char × List Char :=
  match splitAtColon cs with
  | none => ([], cs)
  | some (pre, post) =>
    if pre ≠ [] ∧ (pre.headD 'a').isAlpha ∧ pre.all isSchemeChar then
      (pre.map Char.toLower, post)
    else ([], cs)

/-- The netloc extraction of the stdlib `urlparse`: present exactly when the
remainder after the scheme starts with two slashes, and extends to the next
slash, question mark or hash. -/
def urlsplitNetloc (cs : List Char) : List Char :=
  match cs with
  | '/' :: '/' :: rest => rest.takeWhile (fun c => c ≠ '/' ∧ c ≠ '?' ∧ c ≠ '#')
  | _ => []

/-- The URL validation used by `update_repo` (`main.py` lines 139-141) and
`configs.check_url`: `bool(parsed.scheme and parsed.netloc)`, i.e. both the
scheme and the netloc of the parsed URL are non-empty. -/
def check_url (url : String) : Bool :=
  let parsed := urlsplitScheme url.toList
  ¬ parsed.1.isEmpty ∧ ¬ (urlsplitNetloc parsed.2).isEmpty

/-- The result `update_repo` logs for its mapping. -/
inductive RepoSyncResult
  | invalidUrl
  | checkFailed
  | existed
  | migrated (o : Outcome)
deriving DecidableEq, Repr

/-- The behaviour of the target host during one `update_repo` run: the status
of the org lookup, of the org creation (if issued), the result of the
materialized listing call (if issued; `none` when it raised), and the status
of the migrate call (if issued). -/
structure TargetWorld where
  lookupStatus : Nat
  createOrgStatus : Nat
  listing : Option (List Repo)
  migrateStatus : Nat
deriving DecidableEq, Repr

/-- `update_repo` (`main.py` lines 138-154): validates the source URL with
the stdlib parser and fails the mapping with no remote call when it is not a
well-formed absolute URL; otherwise ensures the target org via
`check_target`, records Existed when the repo name is already listed, and
otherwise performs one migrate call.  Returns the remote calls issued and
the logged result. -/
def update_repo (w : TargetWorld) (origin origin_url : String) :
    List RemoteCall × RepoSyncResult :=
  if check_url origin_url = false then ([], .invalidUrl)
  else
    let ct := check_target w.lookupStatus w.createOrgStatus w.listing
    match ct.2 with
    | none => (ct.1, .checkFailed)
    | some repos =>
      if origin ∈ repos.map Repo.name then (ct.1, .existed)
      else (ct.1 ++ (repo_migrate w.migrateStatus).1,
            .migrated (repo_migrate w.migrateStatus).2)

/-- One entry of the configured `mirrors` list as `main` reads it
(`mirror.get(...)`: `none` models an absent key). -/
structure MirrorCfg where
  type : Option String
  origin : Option String
  target : Option String
  url : Option String
deriving DecidableEq, Repr

/-- Python falsiness of `mirror.get(key)`: the key is absent or its value is
the empty string. -/
def falsy : Option String → Bool
  | none => true
  | some s => s.isEmpty

/-- One observable event of the mapping loop of `main`: the logged type
error, or the start of a repo or org sync. -/
inductive MapEvent
  | typeError (origin target : String)
  | syncRepo (origin : String) (url : Option String) (target : String)
  | syncOrg (origin target : String)
deriving DecidableEq, Repr

/-- The mapping loop of `main` (`main.py` lines 185-201): for each configured
mirror, a falsy origin returns from `main` at once (line 188, no log); a
missing target defaults to the origin; a type other than repo or org logs the
failure for that mapping and then returns from `main` (line 194); otherwise
the mapping is run and the loop moves to the next entry. -/
def main_mirror_loop : List MirrorCfg → List MapEvent
  | [] => []
  | m :: ms =>
    if falsy m.origin then []
    else
      let origin := m.origin.getD ""
      let target := if falsy m.target then origin else m.target.getD ""
      if m.type ≠ some "repo" ∧ m.type ≠ some "org" then [.typeError origin target]
      else if m.type = some "repo" then
        .syncRepo origin m.url target :: main_mirror_loop ms
      else
        .syncOrg origin target :: main_mirror_loop ms

/-- Modelled from the spec: the bounded concurrent executor.  The executor
that acquires `Session.semaphore` is not in the tree — `configs.py`
(`Session.load_config`, lines 85-87) creates `asyncio.Semaphore(concurrency)`
but no code under the sources acquires it, and `main.py`'s task fan-out takes
no limit.  Per §4.4/§5 of the spec, each fan-out task performs one remote
call while holding the counting semaphore, so a state of one mapping's
execution is the number of tasks still waiting for the semaphore, the number
holding it (call in flight), and the number finished. -/
structure ExecState where
  waiting : Nat
  inFlight : Nat
  finished : Nat
deriving DecidableEq, Repr

/-- Modelled from the spec: one cooperative scheduling step of the bounded
executor with semaphore capacity `N`.  A waiting task may acquire the
semaphore only while fewer than `N` tasks hold it; a task holding it may
complete its call and release it.  No other transition exists. -/
inductive ExecStep (N : Nat) : ExecState → ExecState → Prop
  | acquire (s : ExecState) : 0 < s.waiting → s.inFlight < N →
      ExecStep N s ⟨s.waiting - 1, s.inFlight + 1, s.finished⟩
  | finish (s : ExecState) : 0 < s.inFlight →
      ExecStep N s ⟨s.waiting, s.inFlight - 1, s.finished + 1⟩

/-- Modelled from the spec: the states reachable by the bounded executor run
on a batch of `M` tasks (initially all waiting) under capacity `N`. -/
inductive ExecReach (N M : Nat) : ExecState → Prop
  | init : ExecReach N M ⟨M, 0, 0⟩
  | step {s t : ExecState} : ExecReach N M s → ExecStep N s t → ExecReach N M t

/-! Concrete fixtures used to instantiate the theorems below. -/

/-- Origin listing of the spec's concrete scenario: repos a, b, c. -/
def demoOrigin : List Repo := [⟨"a", "ua"⟩, ⟨"b", "ub"⟩, ⟨"c", "uc"⟩]

/-- Target listing names of the spec's concrete scenario: b, c, d. -/
def demoTargets : List String := ["b", "c", "d"]

/-- Target listing repos of the concrete scenario. -/
def demoTargetRepos : List Repo := [⟨"b", "ub"⟩, ⟨"c", "uc"⟩, ⟨"d", "ud"⟩]

/-- First page of a two-page listing: two items, a next relation to P2. -/
def pageA : PageResp := ⟨200, [⟨"r1", "u1"⟩, ⟨"r2", "u2"⟩], [("next", ⟨some "P2"⟩)]⟩

/-- Second and last page: one item, no next relation. -/
def pageB : PageResp := ⟨200, [⟨"r3", "u3"⟩], []⟩

/-- A host serving the two-page listing: P2 answers with the last page, any
other URL with the first. -/
def twoPageWorld : String → PageResp := fun u => if u = "P2" then pageB else pageA

/-- A page whose next relation is present but carries no url field. -/
def pageNoUrl : PageResp := ⟨200, [⟨"r1", "u1"⟩], [("next", ⟨none⟩)]⟩

/-- A host answering every URL with `pageNoUrl`. -/
def noUrlWorld : String → PageResp := fun _ => pageNoUrl

/-- A target host used to instantiate the single-repo theorems. -/
def demoWorld : TargetWorld := ⟨200, 201, some demoTargetRepos, 201⟩

/-- A fan-out batch with one failing create among succeeding tasks. -/
def demoCreates : List (Repo × Nat) := [(⟨"x", "ux"⟩, 201), (⟨"y", "uy"⟩, 500)]

/-- The delete side of the demo batch. -/
def demoDeletes : List (String × Nat) := [("z", 204), ("w", 403)]

/-! ### Reconciliation: structure of the diff -/

/-- Every repo scheduled for creation by the diff loop is one of the streamed
origin entries (and hence carries that entry's clone URL). -/
theorem org_diff_creates_subset : ∀ (rs : List Repo) (names : List String),
    ∀ r ∈ (org_diff rs names).1, r ∈ rs := by
  intro rs
  induction rs with
  | nil => intro names r hr; simp [org_diff] at hr
  | cons a rs ih =>
    intro names r hr
    by_cases h : a.name ∈ names
    · simp only [org_diff, if_pos h] at hr
      exact List.mem_cons_of_mem _ (ih _ r hr)
    · simp only [org_diff, if_neg h] at hr
      rcases List.mem_cons.mp hr with h1 | h1
      · exact h1 ▸ List.mem_cons_self _ _
      · exact List.mem_cons_of_mem _ (ih _ r h1)

/-- Membership characterization of the three diff components: with names
unique on both sides, a name is scheduled for creation exactly when it is an
origin name absent from the target, classified unchanged exactly when it is
on both sides, and scheduled for deletion exactly when it is a target name
absent from the origin. -/
theorem org_diff_mem : ∀ (rs : List Repo) (names : List String),
    (rs.map Repo.name).Nodup → names.Nodup → ∀ x : String,
    (x ∈ (org_diff rs names).1.map Repo.name ↔ x ∈ rs.map Repo.name ∧ x ∉ names) ∧
    (x ∈ (org_diff rs names).2.1 ↔ x ∈ rs.map Repo.name ∧ x ∈ names) ∧
    (x ∈ (org_diff rs names).2.2 ↔ x ∈ names ∧ x ∉ rs.map Repo.name) := by
  intro rs
  induction rs with
  | nil => intro names hO hT x; simp [org_diff]
  | cons r rs ih =>
    intro names hO hT x
    simp only [List.map_cons, List.nodup_cons] at hO
    obtain ⟨hr, hO⟩ := hO
    have hxr : x ∈ rs.map Repo.name → ¬ x = r.name := fun h1 h2 => hr (h2 ▸ h1)
    by_cases hmem : r.name ∈ names
    · have hxn : x = r.name → x ∈ names := fun h => h ▸ hmem
      obtain ⟨ih1, ih2, ih3⟩ := ih (names.erase r.name) hO (hT.erase _) x
      rw [hT.mem_erase_iff] at ih1 ih2 ih3
      simp only [org_diff, if_pos hmem, List.map_cons, List.mem_cons]
      refine ⟨?_, ?_, ?_⟩
      · rw [ih1]
        constructor
        · rintro ⟨hm, hn⟩
          exact ⟨Or.inr hm, fun hmem2 => hn ⟨hxr hm, hmem2⟩⟩
        · rintro ⟨h1 | h1, hnn⟩
          · exact (hnn (hxn h1)).elim
          · exact ⟨h1, fun hp => hnn hp.2⟩
      · rw [ih2]
        constructor
        · rintro (h | ⟨h1, _, h3⟩)
          · exact ⟨Or.inl h, hxn h⟩
          · exact ⟨Or.inr h1, h3⟩
        · rintro ⟨h1 | h1, h2⟩
          · exact Or.inl h1
          · exact Or.inr ⟨h1, hxr h1, h2⟩
      · rw [ih3]
        constructor
        · rintro ⟨⟨hne, hn⟩, hnm⟩
          exact ⟨hn, fun h => h.elim hne hnm⟩
        · rintro ⟨hn, hno⟩
          exact ⟨⟨fun h => hno (Or.inl h), hn⟩, fun h => hno (Or.inr h)⟩
    · have hxn : x = r.name → x ∉ names := fun h => h ▸ hmem
      obtain ⟨ih1, ih2, ih3⟩ := ih names hO hT x
      simp only [org_diff, if_neg hmem, List.map_cons, List.mem_cons]
      refine ⟨?_, ?_, ?_⟩
      · rw [ih1]
        constructor
        · rintro (h | ⟨h1, h2⟩)
          · exact ⟨Or.inl h, hxn h⟩
          · exact ⟨Or.inr h1, h2⟩
        · rintro ⟨h1 | h1, h2⟩
          · exact Or.inl h1
          · exact Or.inr ⟨h1, h2⟩
      · rw [ih2]
        constructor
        · rintro ⟨h1, h2⟩
          exact ⟨Or.inr h1, h2⟩
        · rintro ⟨h1 | h1, h2⟩
          · exact (hxn h1 h2).elim
          · exact ⟨h1, h2⟩
      · rw [ih3]
        constructor
        · rintro ⟨h1, h2⟩
          exact ⟨h1, fun h => h.elim (fun he => hxn he h1) h2⟩
        · rintro ⟨h1, h2⟩
          exact ⟨h1, fun hm => h2 (Or.inr hm)⟩

/-- C1: over an origin listing with name set O and a target listing with name
set T (names unique within each namespace), the diff of `update_org`
schedules exactly O minus T for creation (each created entry being an origin
entry, with its clone URL), exactly T minus O for deletion, and classifies
exactly the intersection unchanged; the three sets are pairwise disjoint and
their union is the union of O and T. -/
theorem org_reconciliation_partition (originRepos : List Repo) (targetNames : List String)
    (hO : (originRepos.map Repo.name).Nodup) (hT : targetNames.Nodup) :
    ((org_diff originRepos targetNames).1.map Repo.name).toFinset
        = (originRepos.map Repo.name).toFinset \ targetNames.toFinset
    ∧ (org_diff originRepos targetNames).2.2.toFinset
        = targetNames.toFinset \ (originRepos.map Repo.name).toFinset
    ∧ (org_diff originRepos targetNames).2.1.toFinset
        = (originRepos.map Repo.name).toFinset ∩ targetNames.toFinset
    ∧ (∀ r ∈ (org_diff originRepos targetNames).1, r ∈ originRepos)
    ∧ Disjoint ((org_diff originRepos targetNames).1.map Repo.name).toFinset
        (org_diff originRepos targetNames).2.1.toFinset
    ∧ Disjoint ((org_diff originRepos targetNames).1.map Repo.name).toFinset
        (org_diff originRepos targetNames).2.2.toFinset
    ∧ Disjoint (org_diff originRepos targetNames).2.1.toFinset
        (org_diff originRepos targetNames).2.2.toFinset
    ∧ ((org_diff originRepos targetNames).1.map Repo.name).toFinset
        ∪ (org_diff originRepos targetNames).2.1.toFinset
        ∪ (org_diff originRepos targetNames).2.2.toFinset
        = (originRepos.map Repo.name).toFinset ∪ targetNames.toFinset := by
  have h := org_diff_mem originRepos targetNames hO hT
  have e1 : ((org_diff originRepos targetNames).1.map Repo.name).toFinset
      = (originRepos.map Repo.name).toFinset \ targetNames.toFinset := by
    ext x
    simp only [List.mem_toFinset, Finset.mem_sdiff]
    exact (h x).1
  have e2 : (org_diff originRepos targetNames).2.2.toFinset
      = targetNames.toFinset \ (originRepos.map Repo.name).toFinset := by
    ext x
    simp only [List.mem_toFinset, Finset.mem_sdiff]
    exact (h x).2.2
  have e3 : (org_diff originRepos targetNames).2.1.toFinset
      = (originRepos.map Repo.name).toFinset ∩ targetNames.toFinset := by
    ext x
    simp only [List.mem_toFinset, Finset.mem_inter]
    exact (h x).2.1
  refine ⟨e1, e2, e3, org_diff_creates_subset _ _, ?_, ?_, ?_, ?_⟩
  · rw [e1, e3]
    exact Finset.disjoint_left.mpr fun a ha hb =>
      (Finset.mem_sdiff.mp ha).2 (Finset.mem_inter.mp hb).2
  · rw [e1, e2]
    exact Finset.disjoint_left.mpr fun a ha hb =>
      (Finset.mem_sdiff.mp hb).2 (Finset.mem_sdiff.mp ha).1
  · rw [e3, e2]
    exact Finset.disjoint_left.mpr fun a ha hb =>
      (Finset.mem_sdiff.mp hb).2 (Finset.mem_inter.mp ha).1
  · rw [e1, e2, e3]
    ext x
    simp only [Finset.mem_union, Finset.mem_sdiff, Finset.mem_inter]
    tauto

/-- Witness for C1 at the spec's concrete scenario (origin a b c against
target b c d). -/
theorem org_reconciliation_partition_witness :
    (demoOrigin.map Repo.name).Nodup ∧ demoTargets.Nodup ∧
    ((org_diff demoOrigin demoTargets).1.map Repo.name).toFinset
      = (demoOrigin.map Repo.name).toFinset \ demoTargets.toFinset :=
  ⟨by decide, by decide,
    (org_reconciliation_partition demoOrigin demoTargets (by decide) (by decide)).1⟩

/-- C2: when the origin stream raises after yielding `seen`, `update_org`
schedules exactly the same creates, unchanged classifications and deletes as
a run in which the stream ended normally after the same items — in
particular every target name not matched by a seen origin repo is still
deleted — and the mapping is reported incomplete instead of successful. -/
theorem org_partial_enumeration (listing seen : List Repo)
    (hO : (seen.map Repo.name).Nodup) (hT : (listing.map Repo.name).Nodup) :
    (update_org (some listing) seen true).creates
        = (update_org (some listing) seen false).creates
    ∧ (update_org (some listing) seen true).existed
        = (update_org (some listing) seen false).existed
    ∧ (update_org (some listing) seen true).deletes
        = (update_org (some listing) seen false).deletes
    ∧ (update_org (some listing) seen true).report = SyncReport.incomplete
    ∧ (update_org (some listing) seen false).report = SyncReport.success
    ∧ ∀ n : String, n ∈ (update_org (some listing) seen true).deletes ↔
        n ∈ listing.map Repo.name ∧ n ∉ seen.map Repo.name := by
  refine ⟨rfl, rfl, rfl, rfl, rfl, fun n => ?_⟩
  exact (org_diff_mem seen (listing.map Repo.name) hO hT n).2.2

/-- Witness for C2: the stream failed after yielding only repo a; all three
target names are nonetheless scheduled for deletion... the run is reported
incomplete. -/
theorem org_partial_enumeration_witness :
    ([Repo.mk "a" "ua"].map Repo.name).Nodup ∧ (demoTargetRepos.map Repo.name).Nodup ∧
    (update_org (some demoTargetRepos) [Repo.mk "a" "ua"] true).report
      = SyncReport.incomplete :=
  ⟨by decide, by decide,
    (org_partial_enumeration demoTargetRepos [Repo.mk "a" "ua"] (by decide)
      (by decide)).2.2.2.1⟩

/-! ### Pagination -/

/-- The target pagination loop consumes a chain of 200-pages into the
concatenation of their items, given enough fuel for one iteration per page. -/
theorem target_repos_loop_chain (world : String → PageResp) :
    ∀ (ou : Option String) (pages : List PageResp), PageChain world ou pages →
      ∀ fuel : Nat, pages.length ≤ fuel →
      get_target_org_repos world fuel ou = some (pages.map PageResp.items).flatten := by
  intro ou pages hchain
  induction hchain with
  | nil => intro fuel _; cases fuel <;> simp [get_target_org_repos]
  | cons url rs h200 hrest ih =>
    intro fuel hfuel
    cases fuel with
    | zero => simp at hfuel
    | succ f =>
      have hf : rs.length ≤ f := by simpa using hfuel
      simp only [get_target_org_repos, h200, if_true, ih f hf, List.map_cons,
        List.flatten_cons]

/-- The origin pagination loop is the same loop as the target one (the two
Python functions differ only in the client they call). -/
theorem origin_iter_eq_target (world : String → PageResp) :
    ∀ (fuel : Nat) (ou : Option String),
      get_origin_org_repos_iter world fuel ou = get_target_org_repos world fuel ou := by
  intro fuel
  induction fuel with
  | zero => intro ou; cases ou <;> rfl
  | succ f ih =>
    intro ou
    cases ou with
    | none => rfl
    | some url => simp only [get_origin_org_repos_iter, get_target_org_repos, ih]

/-- C6: a paged listing forming a chain of K pages, each fetched with status
200 and the last without a next relation, makes both paginated readers yield
exactly the concatenation of the K pages of items, in page order, and end
normally. -/
theorem pagination_yields_concatenation (world : String → PageResp) (url : String)
    (pages : List PageResp) (fuel : Nat)
    (hchain : PageChain world (some url) pages) (hfuel : pages.length ≤ fuel) :
    get_target_org_repos world fuel (some url) = some (pages.map PageResp.items).flatten
    ∧ get_origin_org_repos_iter world fuel (some url)
        = some (pages.map PageResp.items).flatten :=
  ⟨target_repos_loop_chain world _ _ hchain fuel hfuel,
   (origin_iter_eq_target world fuel _).trans
     (target_repos_loop_chain world _ _ hchain fuel hfuel)⟩

/-- Witness for C6 at a concrete two-page listing. -/
theorem pagination_yields_concatenation_witness :
    get_target_org_repos twoPageWorld 2 (some "P1")
        = some (([twoPageWorld "P1", twoPageWorld "P2"].map PageResp.items).flatten)
    ∧ get_origin_org_repos_iter twoPageWorld 2 (some "P1")
        = some (([twoPageWorld "P1", twoPageWorld "P2"].map PageResp.items).flatten) :=
  pagination_yields_concatenation twoPageWorld "P1" [twoPageWorld "P1", twoPageWorld "P2"] 2
    (PageChain.cons "P1" [twoPageWorld "P2"] (by decide)
      (PageChain.cons "P2" [] (by decide) PageChain.nil))
    (by decide)

/-- C10: a page whose next relation is present but lacks the url field ends
the sequence normally after that page's items, for both paginated readers,
exactly like an absent next relation. -/
theorem next_link_without_url_ends (world : String → PageResp) (fuel : Nat) (url : String)
    (h200 : (world url).status = 200)
    (hnext : (world url).links.lookup "next" = some ⟨none⟩) :
    get_target_org_repos world (fuel + 1) (some url) = some (world url).items
    ∧ get_origin_org_repos_iter world (fuel + 1) (some url) = some (world url).items := by
  have hnu : nextUrl (world url) = none := by simp [nextUrl, hnext]
  have hbase : get_target_org_repos world fuel none = some [] := by
    cases fuel <;> rfl
  have hbase2 : get_origin_org_repos_iter world fuel none = some [] := by
    cases fuel <;> rfl
  constructor
  · simp [get_target_org_repos, h200, hnu, hbase]
  · simp [get_origin_org_repos_iter, h200, hnu, hbase2]

/-- Witness for C10 at a concrete page carrying a url-less next relation. -/
theorem next_link_without_url_ends_witness :
    (noUrlWorld "P1").status = 200 ∧
    get_target_org_repos noUrlWorld 1 (some "P1") = some (noUrlWorld "P1").items :=
  ⟨by decide, (next_link_without_url_ends noUrlWorld 0 "P1" (by decide) (by decide)).1⟩

/-! ### Namespace ensurer -/

/-- C7 counterexample: the claimed failure condition is not exact — when the
lookup returns 200 but the materialized listing call itself fails,
`check_target` fails even though the lookup status is 200 and no creation
was involved. -/
theorem check_target_exactness_cex :
    ¬ ∀ (ls cs : Nat) (listing : Option (List Repo)),
        ((check_target ls cs listing).2 = none ↔
          (ls ≠ 200 ∧ ls ≠ 404) ∨ (ls = 404 ∧ cs ≠ 201)) := by
  intro h
  exact absurd ((h 200 201 none).mp (by decide)) (by decide)

/-- C7 amended: `check_target` returns the materialized listing on lookup 200
and the empty listing after a 404 answered by a 201 creation, and fails
exactly when the lookup status is neither 200 nor 404, when the creation
after a 404 returns non-201, or when the lookup returns 200 and the listing
call itself fails. -/
theorem check_target_spec (ls cs : Nat) (listing : Option (List Repo)) :
    ((check_target ls cs listing).2 = none ↔
      (ls ≠ 200 ∧ ls ≠ 404) ∨ (ls = 404 ∧ cs ≠ 201) ∨ (ls = 200 ∧ listing = none))
    ∧ (∀ repos, ls = 200 → listing = some repos →
        (check_target ls cs listing).2 = some repos)
    ∧ (ls = 404 → cs = 201 → (check_target ls cs listing).2 = some []) := by
  by_cases h1 : ls = 200
  · subst h1
    cases listing <;> simp [check_target]
  · by_cases h2 : ls = 404
    · subst h2
      by_cases h3 : cs = 201 <;> simp [check_target, h3]
    · simp [check_target, h1, h2]

/-- Witness for the amended C7: a fresh namespace (404 then 201) yields the
empty listing. -/
theorem check_target_spec_witness :
    (check_target 404 201 none).2 = some [] :=
  (check_target_spec 404 201 none).2.2 rfl rfl

/-! ### Create and delete tasks -/

/-- C4 counterexample: a create attempt failing with status 422 records
CreateFailed but performs only its single migrate call — no delete call is
issued for the partially created repository. -/
theorem repo_migrate_422_no_delete :
    (repo_migrate 422).2 = Outcome.createFailed 422 ∧
    RemoteCall.deleteCall ∉ (repo_migrate 422).1 := by decide

/-- C4 amended: every non-201 create status, 422 included, is recorded as
CreateFailed, and `repo_migrate` performs exactly its one migrate call with
no follow-up delete of any kind. -/
theorem repo_migrate_non201 (s : Nat) (h : s ≠ 201) :
    (repo_migrate s).2 = Outcome.createFailed s ∧
    (repo_migrate s).1 = [RemoteCall.migrateCall] := by
  simp [repo_migrate, h]

/-- Witness for the amended C4 at status 422. -/
theorem repo_migrate_non201_witness :
    (422 : Nat) ≠ 201 ∧ (repo_migrate 422).2 = Outcome.createFailed 422 :=
  ⟨by decide, (repo_migrate_non201 422 (by decide)).1⟩

/-- C8: the fan-out produces exactly one outcome per create and per delete
task; the outcome at each position is a function of that task's own status
(so a failing status elsewhere removes or changes no sibling outcome), and a
non-201 create or non-204 delete is recorded as the corresponding Failed
outcome rather than raised. -/
theorem batch_isolation (creates : List (Repo × Nat)) (deletes : List (String × Nat)) :
    (run_batch creates deletes).length = creates.length + deletes.length
    ∧ (∀ (i : Nat) (p : Repo × Nat), creates[i]? = some p →
        (run_batch creates deletes)[i]? = some (repo_migrate p.2).2)
    ∧ (∀ (j : Nat) (q : String × Nat), deletes[j]? = some q →
        (run_batch creates deletes)[creates.length + j]? = some (repo_delete q.2).2)
    ∧ (∀ p ∈ creates, p.2 ≠ 201 → (repo_migrate p.2).2 = Outcome.createFailed p.2)
    ∧ (∀ q ∈ deletes, q.2 ≠ 204 → (repo_delete q.2).2 = Outcome.deleteFailed q.2) := by
  refine ⟨by simp [run_batch], ?_, ?_, ?_, ?_⟩
  · intro i p hp
    have hi : i < creates.length := by
      by_contra hlt
      rw [List.getElem?_eq_none (by omega)] at hp
      exact absurd hp (by simp)
    have hpe : creates[i] = p := by
      rw [List.getElem?_eq_getElem hi] at hp
      exact Option.some.inj hp
    simp [run_batch, List.getElem?_append, hi, List.getElem?_map, hp, hpe]
  · intro j q hq
    rw [run_batch, List.getElem?_append_right (by simp), List.length_map]
    simp only [Nat.add_sub_cancel_left, List.getElem?_map, hq]
    rfl
  · intro p _ hs
    simp [repo_migrate, hs]
  · intro q _ hs
    simp [repo_delete, hs]

/-- Witness for C8: in the demo batch the second create fails with 500 and is
recorded as CreateFailed, while the first delete still reports Deleted. -/
theorem batch_isolation_witness :
    demoCreates[1]? = some (Repo.mk "y" "uy", 500) ∧
    (run_batch demoCreates demoDeletes)[1]? = some ((repo_migrate 500).2) ∧
    (run_batch demoCreates demoDeletes)[2]? = some ((repo_delete 204).2) :=
  ⟨by decide,
   (batch_isolation demoCreates demoDeletes).2.1 1 (Repo.mk "y" "uy", 500) (by decide),
   (batch_isolation demoCreates demoDeletes).2.2.1 0 ("z", 204) (by decide)⟩

/-! ### Single-repository mapping -/

/-- C9: a Repository mapping whose source URL fails the stdlib absolute-URL
validation is rejected at once: `update_repo` logs the validation failure and
issues zero remote calls, whatever the target host would have answered. -/
theorem update_repo_invalid_url (w : TargetWorld) (origin origin_url : String)
    (h : check_url origin_url = false) :
    update_repo w origin origin_url = ([], RepoSyncResult.invalidUrl) := by
  simp [update_repo, h]

/-- Witness for C9 at the spec's concrete input. -/
theorem update_repo_invalid_url_witness :
    check_url "not-a-url" = false ∧
    update_repo demoWorld "x" "not-a-url" = ([], RepoSyncResult.invalidUrl) :=
  ⟨by decide, update_repo_invalid_url demoWorld "x" "not-a-url" (by decide)⟩

/-! ### Mapping loop of main -/

/-- C5: evaluating the mapping loop of `main` on a list whose first mapping
has an invalid type and whose second is a valid org mapping: the loop logs
the type failure for the first mapping and then returns from `main`, so the
second mapping never runs — contradicting the stated behaviour (and the
skip intent of the code's own comments and of `configs.Mirror.validate`). -/
theorem main_loop_stops_after_invalid :
    main_mirror_loop
        [⟨some "bad", some "a", none, none⟩, ⟨some "org", some "b", none, none⟩]
      = [MapEvent.typeError "a" "a"] := by decide

/-! ### Bounded executor (modelled from the spec) -/

/-- C3: in the semaphore-bounded executor with concurrency limit N ≥ 1, every
state reachable while running a batch of M create/delete tasks has at most N
calls in flight. -/
theorem executor_concurrency_bound (N M : Nat) (_hN : 1 ≤ N) :
    ∀ s : ExecState, ExecReach N M s → s.inFlight ≤ N := by
  intro s hs
  induction hs with
  | init => exact Nat.zero_le N
  | step hr hstep ih =>
    cases hstep with
    | acquire hw hf => exact hf
    | finish hf => exact le_trans (Nat.sub_le _ _) ih

/-- Witness for C3: with limit 1 and two tasks, the state after one acquire
has one call in flight, within the bound. -/
theorem executor_concurrency_bound_witness :
    1 ≤ 1 ∧ (ExecState.mk 1 1 0).inFlight ≤ 1 :=
  ⟨le_refl 1,
   executor_concurrency_bound 1 2 (le_refl 1) ⟨1, 1, 0⟩
     (ExecReach.step ExecReach.init (ExecStep.acquire ⟨2, 0, 0⟩ (by decide) (by decide)))⟩

end AutoMirror
